import Mathlib

/-
Verification of the require/load facility of mruby-emb-require
(src/src/mrb_require.c) through a shallow embedding.

Strings are modelled with Lean strings; the character-scanning C helpers
(strrchr, file_basename, the '-' to '_' substitution) are translated to
recursive functions on List Char.  The filesystem, the mruby compiler and
VM, and the platform dynamic loader are external collaborators; they are
modelled as oracle functions packaged in structures (FS, DL, Env).  The
interpreter globals touched by the component ($:, $", $"_, mrb->exc) and a
trace of file executions form LoaderState.  mrb_raise / longjmp unwinding
is modelled by the Res result type: raised carries the error and the
global state at the moment of the unwind.
-/

namespace MrbRequire

/-- Suffix of the character list starting at the last occurrence of the
dot character, dot included; none when no dot occurs.
Models strrchr(s, '.') as used throughout mrb_require.c. -/
def strrchr_dot : List Char → Option (List Char)
  | [] => none
  | c :: rest =>
    match strrchr_dot rest with
    | some s => some s
    | none => if c = '.' then some (c :: rest) else none

/-- Part of the character list after the last path separator ('/' or '\').
Models file_basename: the C loop repeatedly jumps past a separator until
none remains, ending right after the last one. -/
def after_last_sep (l : List Char) : List Char :=
  l.foldl (fun acc c => if c = '/' ∨ c = '\\' then [] else acc ++ [c]) []

/-- Characters before the last dot; the whole list when no dot occurs.
Models the truncation *strrchr(ptr, '.') = 0 in load_so_file /
unload_so_file. -/
def strip_last_ext : List Char → List Char
  | [] => []
  | c :: rest =>
    match strrchr_dot rest with
    | some _ => c :: strip_last_ext rest
    | none => if c = '.' then [] else c :: strip_last_ext rest

/-- Extension of a whole path string: suffix from the last dot, dot
included (strrchr(path, '.')), none when the path has no dot. -/
def extOf (s : String) : Option String :=
  (strrchr_dot s.data).map (fun l => String.mk l)

/-- file_basename lifted to String. -/
def file_basename (s : String) : String :=
  String.mk (after_last_sep s.data)

/-- Every '-' replaced by '_' (the for-loop over ptr in load_so_file). -/
def dash_to_underscore (s : String) : String :=
  String.mk (s.data.map (fun c => if c = '-' then '_' else c))

/-- The symbol-name stem of load_so_file / unload_so_file: base name,
extension stripped at the last dot, dashes turned to underscores. -/
def so_stem (filepath : String) : String :=
  dash_to_underscore (String.mk (strip_last_ext (file_basename filepath).data))

/-- True when the string's first character is c (models *fname == c). -/
def startsWithChar (s : String) (c : Char) : Bool :=
  match s.data with
  | [] => false
  | d :: _ => d = c

/-- Filesystem oracle: canon models relativeToFullPath (realpath; none on
failure), openable models fopen(path, "r") succeeding. -/
structure FS where
  canon : String → Option String
  openable : String → Bool

/-- Errors raised through the mruby exception machinery.  runtimeError is
E_RUNTIME_ERROR, loadError is E_LOAD_ERROR (ScriptError); scriptError
stands for an arbitrary exception raised by executed script code and
fatalJump for the longjmp(*mrb->jmp) escape of the irep loaders. -/
inductive ReqError where
  | runtimeError (msg : String)
  | loadError (msg : String)
  | scriptError
  | fatalJump
deriving DecidableEq

/-- find_file_check: build dir/fname(ext), canonicalize with
relativeToFullPath, test with fopen, and return the canonical path. -/
def find_file_check (fs : FS) (path fname : String) (ext : Option String) :
    Option String :=
  let fp := path ++ "/" ++ fname ++ (match ext with | some e => e | none => "")
  match fs.canon fp with
  | none => none
  | some full => if fs.openable full then some full else none

/-- The candidate-extension list of find_file: [.rb, .mrb, .so] when the
base name of fname has no dot, the single no-substitution entry otherwise. -/
def candExts (fname : String) : List (Option String) :=
  match strrchr_dot (after_last_sep fname.data) with
  | none => [some (".rb"), some (".mrb"), some (".so")]
  | some _ => [none]

/-- Inner loop of find_file: try each candidate extension in one directory. -/
def findInExts (fs : FS) (fname d : String) : List (Option String) → Option String
  | [] => none
  | e :: es =>
    match find_file_check fs d fname e with
    | some p => some p
    | none => findInExts fs fname d es

/-- Outer loop of find_file: directories in order, extensions within each. -/
def findInDirs (fs : FS) (fname : String) :
    List String → List (Option String) → Option String
  | [], _ => none
  | d :: ds, exts =>
    match findInExts fs fname d exts with
    | some p => some p
    | none => findInDirs fs fname ds exts

/-- Directory-major flattening of the two nested loops of find_file,
written from the spec's words "iterate directories in order and, within
each directory, the candidate extensions in order". -/
def pairsOf : List String → List (Option String) → List (String × Option String)
  | [], _ => []
  | d :: ds, exts => exts.map (fun e => (d, e)) ++ pairsOf ds exts

/-- First (directory, extension) candidate that opens, over a flat list. -/
def findPairs (fs : FS) (fname : String) :
    List (String × Option String) → Option String
  | [] => none
  | de :: rest =>
    match find_file_check fs de.1 fname de.2 with
    | some p => some p
    | none => findPairs fs fname rest

/-- find_file (POSIX branch): loadPath is none when $: is not an array
(mrb_check_array_type returned nil).  Absolute names (leading '/') are
tried verbatim with fopen; names with a leading '.' replace the load path
by ["."]; everything else walks loadPath with the candidate extensions.
Failure raises E_LOAD_ERROR "cannot load such file -- name". -/
def find_file (fs : FS) (loadPath : Option (List String)) (fname : String) :
    Except ReqError String :=
  match loadPath with
  | none => Except.error (ReqError.runtimeError ("invalid $:"))
  | some lp =>
    let exts := candExts fname
    if startsWithChar fname '/' then
      if fs.openable fname then Except.ok fname
      else Except.error (ReqError.loadError ("cannot load such file -- " ++ fname))
    else
      let lp2 := if startsWithChar fname '.' then ["."] else lp
      match findInDirs fs fname lp2 exts with
      | some p => Except.ok p
      | none => Except.error (ReqError.loadError ("cannot load such file -- " ++ fname))

/- Opcode constants and encoding macros, from the mruby 1.x opcode.h the
source includes.  The proofs below depend only on the constants being
fixed values, not on the particular numbers. -/

def OP_LOADNIL : Nat := 5

def OP_RETURN : Nat := 41

def OP_STOP : Nat := 74

def OP_R_NORMAL : Nat := 0

def MKOPCODE (op : Nat) : Nat := op &&& 0x7f

def MKARG_A (a : Nat) : Nat := (a &&& 0x1ff) <<< 23

def MKARG_B (b : Nat) : Nat := (b &&& 0x1ff) <<< 14

def MKOP_A (op a : Nat) : Nat := MKOPCODE op ||| MKARG_A a

def MKOP_AB (op a b : Nat) : Nat := MKOP_A op a ||| MKARG_B b

def MRB_ISEQ_NO_FREE : Nat := 1

/-- The observable part of an mrb_irep for replace_stop_with_return:
its instruction buffer (iseq, with ilen = iseq.length) and its flags
byte. -/
structure Irep where
  iseq : List Nat
  flags : Nat
deriving DecidableEq

/-- replace_stop_with_return: when the final instruction is the bare
OP_STOP, the MRB_ISEQ_NO_FREE buffer is first replaced by an owned copy
with the flag cleared (flags &= ~MRB_ISEQ_NO_FREE, i.e. &&& 0xfe on the
uint8), otherwise the buffer is reallocated in place; then the final
instruction becomes OP_LOADNIL and an OP_RETURN is appended, growing
ilen by one.  (The C code indexes iseq[ilen-1]; an empty buffer is
undefined behaviour there and falls into the unchanged branch here.) -/
def replace_stop_with_return (r : Irep) : Irep :=
  if r.iseq.getLast? = some (MKOP_A OP_STOP 0) then
    let r2 := if r.flags = MRB_ISEQ_NO_FREE then
      { r with flags := r.flags &&& 0xfe } else r
    { r2 with iseq :=
        r2.iseq.dropLast ++ [MKOP_A OP_LOADNIL 0, MKOP_AB OP_RETURN 0 OP_R_NORMAL] }
  else r

/-- Platform dynamic-loader oracle: dlopenOk models dlopen returning a
handle, dlerr models dlerror() after a failed open, dlsym lib sym models
dlsym(handle-of-lib, sym) resolving. -/
structure DL where
  dlopenOk : String → Bool
  dlerr : String → Option String
  dlsym : String → String → Bool

/-- Oracles for the external collaborators: the filesystem, the mruby
compiler/VM (does mrb_load_file_cxt leave mrb->exc set for this path;
does mrb_read_irep_file succeed; does running the loaded irep raise;
is mrb->exc set after a failed decode), the same for the in-memory blob
of a native extension, and the dynamic loader. -/
structure Env where
  fs : FS
  runSourceErr : String → Bool
  mrbDecodeOk : String → Bool
  mrbRunRaises : String → Bool
  excAfterDecode : String → Bool
  blobDecodeOk : String → Bool
  blobRunRaises : String → Bool
  blobExcAfterDecode : String → Bool
  dl : DL

/-- The interpreter globals the component touches: $: (none when not an
array), $" (loaded files, load order), $"_ (loading files, nil until
first used), a trace of file executions performed by the loaders, and
the mrb->exc flag. -/
structure LoaderState where
  searchPath : Option (List String)
  loadedFiles : List String
  loadingFiles : Option (List String)
  executed : List String
  exc : Bool
deriving DecidableEq

/-- Result of a stateful operation: normal return, or an mruby raise /
longjmp carrying the globals as they stood at the unwind. -/
inductive Res (α : Type) where
  | ok (v : α) (s : LoaderState)
  | raised (e : ReqError) (s : LoaderState)
deriving DecidableEq

/-- The state component of a result. -/
def Res.state {α : Type} : Res α → LoaderState
  | .ok _ s => s
  | .raised _ s => s

/-- Apply a state transformation under either constructor. -/
def Res.mapState {α : Type} (f : LoaderState → LoaderState) : Res α → Res α
  | .ok v s => .ok v (f s)
  | .raised e s => .raised e (f s)

/-- The returned-value component when the operation returned normally. -/
def Res.retOk {α : Type} : Res α → Option α
  | .ok v _ => some v
  | .raised _ _ => none

/-- load_rb_file: re-check the file opens (mrb_load_fail raising
E_LOAD_ERROR "cannot load such file -- path" if not), then compile and
run it with mrb_load_file_cxt.  A compile or runtime error merely leaves
mrb->exc set and is printed (mrb_print_error); control still returns
normally to the caller. -/
def load_rb_file (env : Env) (s : LoaderState) (p : String) : Res Unit :=
  if env.fs.openable p then
    .ok () { s with executed := s.executed ++ [p], exc := env.runSourceErr p }
  else
    .raised (.loadError ("cannot load such file -- " ++ p)) s

/-- load_mrb_file: re-check the file opens (raising "can't load" if
not), decode with mrb_read_irep_file; on success patch the irep and run
it (a raise from the running code unwinds), on decode failure with
mrb->exc set longjmp out, otherwise return silently. -/
def load_mrb_file (env : Env) (s : LoaderState) (p : String) : Res Unit :=
  if env.fs.openable p then
    if env.mrbDecodeOk p then
      if env.mrbRunRaises p then
        .raised .scriptError { s with executed := s.executed ++ [p], exc := true }
      else
        .ok () { s with executed := s.executed ++ [p] }
    else if env.excAfterDecode p then
      .raised .fatalJump s
    else
      .ok () s
  else
    .raised (.loadError ("can't load " ++ p)) s

/-- mrb_load_irep_data on the embedded blob of the native extension at
path p: decode with mrb_read_irep, run on success, longjmp on decode
failure with mrb->exc set, silent no-op otherwise. -/
def mrb_load_irep_data (env : Env) (s : LoaderState) (p : String) : Res Unit :=
  if env.blobDecodeOk p then
    if env.blobRunRaises p then
      .raised .scriptError { s with executed := s.executed ++ [p], exc := true }
    else
      .ok () { s with executed := s.executed ++ [p] }
  else if env.blobExcAfterDecode p then
    .raised .fatalJump s
  else
    .ok () s

/-- The conventional init symbol mrb_<stem>_gem_init. -/
def so_entry_init (p : String) : String := "mrb_" ++ so_stem p ++ "_gem_init"

/-- The conventional embedded-bytecode symbol gem_mrblib_irep_<stem>. -/
def so_entry_irep (p : String) : String := "gem_mrblib_irep_" ++ so_stem p

/-- load_so_file: dlopen (on failure, CheckError re-raises dlerror text
as E_RUNTIME_ERROR when one is recorded, else an E_LOAD_ERROR naming the
path); derive the stem, look up both conventional symbols; raise an
E_LOAD_ERROR naming both symbols and the path when neither resolves;
otherwise run the init function first (its external effect recorded as
an execution of p), then feed the embedded blob to mrb_load_irep_data. -/
def load_so_file (env : Env) (s : LoaderState) (p : String) : Res Unit :=
  if env.dl.dlopenOk p then
    let hasInit := env.dl.dlsym p (so_entry_init p)
    let hasIrep := env.dl.dlsym p (so_entry_irep p)
    if !hasInit && !hasIrep then
      .raised (.loadError ("failed to attach " ++ so_entry_init p ++ " or " ++
        so_entry_irep p ++ " in library " ++ p ++ "\n")) s
    else
      let s1 := if hasInit then { s with executed := s.executed ++ [p] } else s
      if hasIrep then mrb_load_irep_data env s1 p else .ok () s1
  else
    match env.dl.dlerr p with
    | some m => .raised (.runtimeError m) s
    | none =>
      .raised (.loadError ("failed to load " ++ p ++
        ", open return a NULL pointer\n")) s

/-- load_file: dispatch on strrchr of the WHOLE resolved path.  No dot,
or ".rb", goes to the source loader; ".mrb" to the bytecode loader;
".so"/".dll"/".dylib" to the native loader; anything else raises
E_LOAD_ERROR "invalid extension". -/
def load_file (env : Env) (s : LoaderState) (p : String) : Res Unit :=
  match extOf p with
  | none => load_rb_file env s p
  | some e =>
    if e = ".rb" then load_rb_file env s p
    else if e = ".mrb" then load_mrb_file env s p
    else if e = ".so" ∨ e = ".dll" ∨ e = ".dylib" then load_so_file env s p
    else .raised (.loadError ("Filepath '" ++ p ++ "' has invalid extension.")) s

/-- mrb_load: resolve and load unconditionally, returning true on every
normal return. -/
def mrb_load (env : Env) (s : LoaderState) (fname : String) : Res Bool :=
  match find_file env.fs s.searchPath fname with
  | .error e => .raised e s
  | .ok p =>
    match load_file env s p with
    | .ok _ s1 => .ok true s1
    | .raised e s1 => .raised e s1

/-- loaded_files_check: 0 (false) when the path is in $" or in a
non-nil $"_, 1 (true) otherwise. -/
def loaded_files_check (s : LoaderState) (p : String) : Bool :=
  if s.loadedFiles.contains p then false
  else
    match s.loadingFiles with
    | none => true
    | some lf => !(lf.contains p)

/-- loading_files_add: push onto $"_, creating the array when nil. -/
def loading_files_add (s : LoaderState) (p : String) : LoaderState :=
  { s with loadingFiles := some ((s.loadingFiles.getD []) ++ [p]) }

/-- loaded_files_add: push onto $". -/
def loaded_files_add (s : LoaderState) (p : String) : LoaderState :=
  { s with loadedFiles := s.loadedFiles ++ [p] }

/-- mrb_require: resolve; gate on loaded_files_check; when it passes,
mark in progress, dispatch, mark loaded, return true; otherwise return
false.  (find_file never returns nil on a normal return - it raises on
failure - so the C null test on its result is vacuous here.) -/
def mrb_require (env : Env) (s : LoaderState) (fname : String) : Res Bool :=
  match find_file env.fs s.searchPath fname with
  | .error e => .raised e s
  | .ok p =>
    if loaded_files_check s p then
      match load_file env (loading_files_add s p) p with
      | .ok _ s2 => .ok true (loaded_files_add s2 p)
      | .raised e s2 => .raised e s2
    else
      .ok false s

/-- mrb_mruby_require_gem_final: walk $" in order and, for each entry
whose strrchr extension is exactly ".so", invoke unload_so_file.  The
result lists the paths whose finalizer invocation is triggered, in
order. -/
def mrb_mruby_require_gem_final : List String → List String
  | [] => []
  | f :: rest =>
    match extOf f with
    | some e =>
      if e = ".so" then f :: mrb_mruby_require_gem_final rest
      else mrb_mruby_require_gem_final rest
    | none => mrb_mruby_require_gem_final rest

/-- Modelled from the spec: the native-library extensions the Unloader
section says are finalized at shutdown (.so, .dll, .dylib).  Used only
to state the claim the code is compared against. -/
def spec_native_ext (f : String) : Bool :=
  extOf f == some (".so") || extOf f == some (".dll") || extOf f == some (".dylib")

/-- Overwrite only the two tracker globals of a state. -/
def setTracker (s : LoaderState) (L : List String) (D : Option (List String)) :
    LoaderState :=
  { s with loadedFiles := L, loadingFiles := D }

/- Concrete fixtures for witnesses and counterexamples. -/

/-- A filesystem where canonicalization is the identity and every path
opens. -/
def fsId : FS := { canon := fun s => some s, openable := fun _ => true }

/-- A filesystem where canonicalization always fails. -/
def fsNone : FS := { canon := fun _ => none, openable := fun _ => false }

/-- A filesystem where exactly the two files d1/x.so and d2/x.rb open. -/
def fsTwo : FS :=
  { canon := fun s => some s,
    openable := fun s => s == "d1/x.so" || s == "d2/x.rb" }

/-- A dynamic loader that opens every library but resolves no symbol. -/
def dlNoSyms : DL :=
  { dlopenOk := fun _ => true, dlerr := fun _ => none, dlsym := fun _ _ => false }

/-- Baseline environment: given filesystem, source runs leave mrb->exc
as directed, all bytecode decodes succeed and runs return, no symbols. -/
def mkEnv (fs : FS) (srcErr : Bool) : Env :=
  { fs := fs
    runSourceErr := fun _ => srcErr
    mrbDecodeOk := fun _ => true
    mrbRunRaises := fun _ => false
    excAfterDecode := fun _ => false
    blobDecodeOk := fun _ => true
    blobRunRaises := fun _ => false
    blobExcAfterDecode := fun _ => false
    dl := dlNoSyms }

/-- A fresh state with load path ["d"]. -/
def s0 : LoaderState :=
  { searchPath := some ["d"], loadedFiles := [], loadingFiles := none,
    executed := [], exc := false }

/-- s0 with d/x.rb already recorded in $". -/
def sLoaded : LoaderState := { s0 with loadedFiles := ["d/x.rb"] }

/-- The state mrb_require envErr s0 "x" ends in: d/x.rb recorded as
loading and loaded, executed once, mrb->exc left set. -/
def sC2res : LoaderState :=
  { searchPath := some ["d"], loadedFiles := ["d/x.rb"],
    loadingFiles := some ["d/x.rb"], executed := ["d/x.rb"], exc := true }

/-- Environment whose source loads always leave mrb->exc set. -/
def envErr : Env := mkEnv fsId true

/-- Environment whose source loads always succeed. -/
def envOk : Env := mkEnv fsId false

/- Helper lemmas shared by the claim theorems. -/

/-- loaded_files_check is exactly non-membership in $" and in $"_
(a nil $"_ counting as empty). -/
theorem loaded_files_check_spec (s : LoaderState) (p : String) :
    loaded_files_check s p =
      (!(s.loadedFiles.contains p) && !((s.loadingFiles.getD []).contains p)) := by
  unfold loaded_files_check
  cases hL : s.loadedFiles.contains p
  · cases hD : s.loadingFiles <;> simp [hD]
  · simp

/-- load_rb_file touches neither $:, $" nor $"_. -/
theorem load_rb_file_preserves (env : Env) (s : LoaderState) (p : String) :
    (load_rb_file env s p).state.searchPath = s.searchPath ∧
    (load_rb_file env s p).state.loadedFiles = s.loadedFiles ∧
    (load_rb_file env s p).state.loadingFiles = s.loadingFiles := by
  unfold load_rb_file
  cases hO : env.fs.openable p <;> simp [Res.state]

/-- load_mrb_file touches neither $:, $" nor $"_. -/
theorem load_mrb_file_preserves (env : Env) (s : LoaderState) (p : String) :
    (load_mrb_file env s p).state.searchPath = s.searchPath ∧
    (load_mrb_file env s p).state.loadedFiles = s.loadedFiles ∧
    (load_mrb_file env s p).state.loadingFiles = s.loadingFiles := by
  unfold load_mrb_file
  cases hO : env.fs.openable p <;>
    cases hD : env.mrbDecodeOk p <;>
    cases hR : env.mrbRunRaises p <;>
    cases hX : env.excAfterDecode p <;>
    simp [Res.state]

/-- mrb_load_irep_data touches neither $:, $" nor $"_. -/
theorem mrb_load_irep_data_preserves (env : Env) (s : LoaderState) (p : String) :
    (mrb_load_irep_data env s p).state.searchPath = s.searchPath ∧
    (mrb_load_irep_data env s p).state.loadedFiles = s.loadedFiles ∧
    (mrb_load_irep_data env s p).state.loadingFiles = s.loadingFiles := by
  unfold mrb_load_irep_data
  cases hD : env.blobDecodeOk p <;>
    cases hR : env.blobRunRaises p <;>
    cases hX : env.blobExcAfterDecode p <;>
    simp [Res.state]

/-- load_so_file touches neither $:, $" nor $"_. -/
theorem load_so_file_preserves (env : Env) (s : LoaderState) (p : String) :
    (load_so_file env s p).state.searchPath = s.searchPath ∧
    (load_so_file env s p).state.loadedFiles = s.loadedFiles ∧
    (load_so_file env s p).state.loadingFiles = s.loadingFiles := by
  unfold load_so_file
  cases hO : env.dl.dlopenOk p
  · cases hE : env.dl.dlerr p <;> simp [Res.state]
  · cases hI : env.dl.dlsym p (so_entry_init p) <;>
      cases hJ : env.dl.dlsym p (so_entry_irep p)
    · simp [Res.state]
    · simpa using mrb_load_irep_data_preserves env s p
    · simp [Res.state]
    · simpa using mrb_load_irep_data_preserves env
        { s with executed := s.executed ++ [p] } p

/-- load_file touches neither $:, $" nor $"_: every loader only appends
to the execution trace and moves mrb->exc. -/
theorem load_file_preserves (env : Env) (s : LoaderState) (p : String) :
    (load_file env s p).state.searchPath = s.searchPath ∧
    (load_file env s p).state.loadedFiles = s.loadedFiles ∧
    (load_file env s p).state.loadingFiles = s.loadingFiles := by
  unfold load_file
  cases hE : extOf p with
  | none => exact load_rb_file_preserves env s p
  | some e =>
    by_cases h1 : e = ".rb"
    · simp only [h1, if_true]
      exact load_rb_file_preserves env s p
    · by_cases h2 : e = ".mrb"
      · simp only [h1, h2, if_false, if_true]
        exact load_mrb_file_preserves env s p
      · by_cases h3 : e = ".so" ∨ e = ".dll" ∨ e = ".dylib"
        · simp only [h1, h2, h3, if_false, if_true]
          exact load_so_file_preserves env s p
        · simp only [h1, h2, h3, if_false]
          exact ⟨rfl, rfl, rfl⟩

/-- load_rb_file neither reads nor writes the tracker globals: it
commutes with overwriting them. -/
theorem load_rb_file_setTracker (env : Env) (s : LoaderState) (L : List String)
    (D : Option (List String)) (p : String) :
    load_rb_file env (setTracker s L D) p =
      Res.mapState (fun t => setTracker t L D) (load_rb_file env s p) := by
  unfold load_rb_file setTracker
  cases hO : env.fs.openable p <;> simp [Res.mapState]

/-- load_mrb_file commutes with overwriting the tracker globals. -/
theorem load_mrb_file_setTracker (env : Env) (s : LoaderState) (L : List String)
    (D : Option (List String)) (p : String) :
    load_mrb_file env (setTracker s L D) p =
      Res.mapState (fun t => setTracker t L D) (load_mrb_file env s p) := by
  unfold load_mrb_file setTracker
  cases hO : env.fs.openable p <;>
    cases hD : env.mrbDecodeOk p <;>
    cases hR : env.mrbRunRaises p <;>
    cases hX : env.excAfterDecode p <;>
    simp [Res.mapState]

/-- mrb_load_irep_data commutes with overwriting the tracker globals. -/
theorem mrb_load_irep_data_setTracker (env : Env) (s : LoaderState)
    (L : List String) (D : Option (List String)) (p : String) :
    mrb_load_irep_data env (setTracker s L D) p =
      Res.mapState (fun t => setTracker t L D) (mrb_load_irep_data env s p) := by
  unfold mrb_load_irep_data setTracker
  cases hD : env.blobDecodeOk p <;>
    cases hR : env.blobRunRaises p <;>
    cases hX : env.blobExcAfterDecode p <;>
    simp [Res.mapState]

/-- load_so_file commutes with overwriting the tracker globals. -/
theorem load_so_file_setTracker (env : Env) (s : LoaderState) (L : List String)
    (D : Option (List String)) (p : String) :
    load_so_file env (setTracker s L D) p =
      Res.mapState (fun t => setTracker t L D) (load_so_file env s p) := by
  unfold load_so_file
  cases hO : env.dl.dlopenOk p
  · cases hE : env.dl.dlerr p <;> simp [Res.mapState, setTracker]
  · cases hI : env.dl.dlsym p (so_entry_init p) <;>
      cases hJ : env.dl.dlsym p (so_entry_irep p)
    · simp [Res.mapState, setTracker]
    · simpa using mrb_load_irep_data_setTracker env s L D p
    · simp [Res.mapState, setTracker]
    · simpa [setTracker] using
        mrb_load_irep_data_setTracker env { s with executed := s.executed ++ [p] } L D p

/-- load_file commutes with overwriting the tracker globals. -/
theorem load_file_setTracker (env : Env) (s : LoaderState) (L : List String)
    (D : Option (List String)) (p : String) :
    load_file env (setTracker s L D) p =
      Res.mapState (fun t => setTracker t L D) (load_file env s p) := by
  unfold load_file
  cases hE : extOf p with
  | none => exact load_rb_file_setTracker env s L D p
  | some e =>
    by_cases h1 : e = ".rb"
    · simp only [h1, if_true]
      exact load_rb_file_setTracker env s L D p
    · by_cases h2 : e = ".mrb"
      · simp only [h1, h2, if_false, if_true]
        exact load_mrb_file_setTracker env s L D p
      · by_cases h3 : e = ".so" ∨ e = ".dll" ∨ e = ".dylib"
        · simp only [h1, h2, h3, if_false, if_true]
          exact load_so_file_setTracker env s L D p
        · simp only [h1, h2, h3, if_false]
          rfl

/-- mrb_load commutes with overwriting the tracker globals: it neither
consults nor keeps them. -/
theorem mrb_load_setTracker (env : Env) (s : LoaderState) (L : List String)
    (D : Option (List String)) (fname : String) :
    mrb_load env (setTracker s L D) fname =
      Res.mapState (fun t => setTracker t L D) (mrb_load env s fname) := by
  unfold mrb_load
  have hsp : (setTracker s L D).searchPath = s.searchPath := rfl
  rw [hsp]
  cases hF : find_file env.fs s.searchPath fname with
  | error e => simp [Res.mapState, setTracker]
  | ok p =>
    dsimp only
    rw [load_file_setTracker]
    cases hL : load_file env s p <;> simp [Res.mapState]

/-- Scanning a concatenation of candidate lists takes the first hit of
the first list, falling through to the second. -/
theorem findPairs_append (fs : FS) (fname : String)
    (a b : List (String × Option String)) :
    findPairs fs fname (a ++ b) =
      match findPairs fs fname a with
      | some p => some p
      | none => findPairs fs fname b := by
  induction a with
  | nil => rfl
  | cons de rest ih =>
    simp only [List.cons_append, findPairs]
    cases hC : find_file_check fs de.1 fname de.2 <;> simp [ih]

/-- The inner extension loop of find_file is the flat scan of the
(one directory, each extension) candidates. -/
theorem findInExts_eq_findPairs (fs : FS) (fname d : String)
    (exts : List (Option String)) :
    findInExts fs fname d exts =
      findPairs fs fname (exts.map (fun e => (d, e))) := by
  induction exts with
  | nil => rfl
  | cons e es ih =>
    simp only [List.map_cons, findInExts, findPairs]
    cases hC : find_file_check fs d fname e <;> simp [ih]

/-- The two nested loops of find_file scan exactly the directory-major
flattening of (directory, extension) candidates. -/
theorem findInDirs_eq_findPairs (fs : FS) (fname : String) (dirs : List String)
    (exts : List (Option String)) :
    findInDirs fs fname dirs exts = findPairs fs fname (pairsOf dirs exts) := by
  induction dirs with
  | nil => rfl
  | cons d ds ih =>
    simp only [findInDirs, pairsOf]
    rw [findPairs_append, findInExts_eq_findPairs]
    cases hH : findPairs fs fname (exts.map (fun e => (d, e))) <;> simp [ih]

/-- Counting inside a Bool filter: kept elements keep their multiplicity,
dropped ones count zero. -/
theorem count_filter_bool (q : String → Bool) (L : List String) (f : String) :
    (L.filter q).count f = if q f then L.count f else 0 := by
  induction L with
  | nil => simp
  | cons a t ih =>
    by_cases hf : a = f
    · subst hf
      cases hq : q a <;> simp [hq, List.count_cons, ih]
    · cases hq : q a <;> simp [hq, List.count_cons, hf, ih]

/- Claim theorems. -/

/-- C1: when the name resolves to a path already in $" or in $"_,
mrb_require returns false with every global (and the execution trace)
untouched, so nothing is dispatched or re-executed; when the path is in
neither and the dispatched load returns normally, the path is marked in
progress, loaded, marked loaded, and true is returned; consequently a
second require of any name resolving to an already-loaded canonical
path returns false. -/
theorem require_idempotent_gating (env : Env) (s : LoaderState) (fname p : String)
    (hres : find_file env.fs s.searchPath fname = Except.ok p) :
    ((s.loadedFiles.contains p = true ∨ (s.loadingFiles.getD []).contains p = true) →
        mrb_require env s fname = Res.ok false s)
    ∧ (s.loadedFiles.contains p = false →
        (s.loadingFiles.getD []).contains p = false →
        ∀ u s2, load_file env (loading_files_add s p) p = Res.ok u s2 →
          mrb_require env s fname = Res.ok true (loaded_files_add s2 p))
    ∧ (∀ s2, mrb_require env s fname = Res.ok true s2 →
        s2.loadedFiles.contains p = true ∧
        ∀ fname2, find_file env.fs s2.searchPath fname2 = Except.ok p →
          mrb_require env s2 fname2 = Res.ok false s2) := by
  refine ⟨?_, ?_, ?_⟩
  · intro h
    have hc : loaded_files_check s p = false := by
      rw [loaded_files_check_spec]
      rcases h with h | h
      · simp only [h, Bool.not_true, Bool.false_and]
      · simp only [h, Bool.not_true, Bool.and_false]
    unfold mrb_require
    rw [hres]
    simp [hc]
  · intro h1 h2 u s2 hload
    have hc : loaded_files_check s p = true := by
      rw [loaded_files_check_spec]
      simp only [h1, h2, Bool.not_false, Bool.and_self]
    unfold mrb_require
    rw [hres]
    simp only [hc, if_true]
    rw [hload]
  · intro s2 hreq
    have hmem : s2.loadedFiles.contains p = true := by
      unfold mrb_require at hreq
      rw [hres] at hreq
      dsimp only at hreq
      cases hc : loaded_files_check s p
      · simp [hc] at hreq
      · simp only [hc, if_true] at hreq
        cases hL : load_file env (loading_files_add s p) p with
        | ok u s3 =>
          rw [hL] at hreq
          cases hreq
          exact List.elem_eq_true_of_mem (by simp [loaded_files_add])
        | raised e s3 =>
          rw [hL] at hreq
          cases hreq
    refine ⟨hmem, ?_⟩
    intro fname2 hres2
    have hc2 : loaded_files_check s2 p = false := by
      rw [loaded_files_check_spec]
      simp only [hmem, Bool.not_true, Bool.false_and]
    unfold mrb_require
    rw [hres2]
    simp [hc2]

/-- C1 witness: with d/x.rb already in $", require of a name resolving
to it returns false and leaves the state untouched. -/
theorem require_idempotent_gating_witness :
    mrb_require envOk sLoaded ("x") = Res.ok false sLoaded :=
  (require_idempotent_gating envOk sLoaded ("x") ("d/x.rb") rfl).1 (Or.inl rfl)

/-- C2 counterexample: a source file whose execution leaves mrb->exc set
(a compile or runtime error inside d/x.rb) is still recorded in $" and
mrb_require still returns true, because load_rb_file prints the pending
exception and returns normally instead of raising. -/
theorem require_records_despite_exc :
    mrb_require envErr s0 ("x") = Res.ok true sC2res ∧
    sC2res.exc = true ∧
    sC2res.loadedFiles.contains ("d/x.rb") = true := by
  exact ⟨rfl, rfl, rfl⟩

/-- C2 (amended): a path is added to $" only when its loader returns
control normally (a loader that raises - unsupported extension, native
open or symbol failure, bytecode longjmp, unopenable source file -
leaves $" unchanged); but the source loader swallows interpreter
exceptions, so a source file whose compilation or execution errored is
nevertheless recorded and require returns true with mrb->exc left set. -/
theorem require_commit_only_without_raise (env : Env) (s : LoaderState)
    (fname : String) :
    (∀ e s2, mrb_require env s fname = Res.raised e s2 →
        s2.loadedFiles = s.loadedFiles)
    ∧ (∀ p, find_file env.fs s.searchPath fname = Except.ok p →
        extOf p = some (".rb") → loaded_files_check s p = true →
        env.fs.openable p = true → env.runSourceErr p = true →
        mrb_require env s fname = Res.ok true
          { searchPath := s.searchPath, loadedFiles := s.loadedFiles ++ [p],
            loadingFiles := some ((s.loadingFiles.getD []) ++ [p]),
            executed := s.executed ++ [p], exc := true }) := by
  constructor
  · intro e s2 hreq
    unfold mrb_require at hreq
    cases hF : find_file env.fs s.searchPath fname with
    | error e2 =>
      rw [hF] at hreq
      cases hreq
      rfl
    | ok p =>
      rw [hF] at hreq
      dsimp only at hreq
      cases hc : loaded_files_check s p
      · simp [hc] at hreq
      · simp only [hc, if_true] at hreq
        cases hL : load_file env (loading_files_add s p) p with
        | ok u s3 =>
          rw [hL] at hreq
          cases hreq
        | raised e3 s3 =>
          rw [hL] at hreq
          cases hreq
          have hpres := (load_file_preserves env (loading_files_add s p) p).2.1
          rw [hL] at hpres
          simpa [Res.state, loading_files_add] using hpres
  · intro p hF hE hc hO hR
    unfold mrb_require
    rw [hF]
    dsimp only
    simp only [hc, if_true]
    unfold load_file
    rw [hE]
    dsimp only
    simp only [if_true]
    unfold load_rb_file
    have hO2 : env.fs.openable p = true := hO
    simp only [loading_files_add, hO2, if_true]
    simp [loaded_files_add, hR]

/-- C2 witness for the amended claim: the swallow branch at a concrete
input, with the exact final state. -/
theorem require_commit_only_without_raise_witness :
    mrb_require envErr s0 ("x") = Res.ok true
      { searchPath := some ["d"], loadedFiles := ["d/x.rb"],
        loadingFiles := some ["d/x.rb"], executed := ["d/x.rb"], exc := true } :=
  (require_commit_only_without_raise envErr s0 ("x")).2 ("d/x.rb") rfl rfl rfl rfl rfl

/-- C3: for a name whose base name has no extension and that is neither
absolute nor dot-relative, find_file is the first-hit scan of the
directory-major flattening of (search-path directory, candidate
extension) pairs with the fixed extension order .rb, .mrb, .so - so
directory order takes priority over extension order and, within one
directory, source beats bytecode beats native. -/
theorem find_file_search_order (fs : FS) (dirs : List String) (fname : String)
    (h1 : strrchr_dot (after_last_sep fname.data) = none)
    (h2 : startsWithChar fname '/' = false)
    (h3 : startsWithChar fname '.' = false) :
    find_file fs (some dirs) fname =
      match findPairs fs fname
          (pairsOf dirs [some (".rb"), some (".mrb"), some (".so")]) with
      | some p => Except.ok p
      | none =>
        Except.error (ReqError.loadError ("cannot load such file -- " ++ fname)) := by
  unfold find_file candExts
  rw [h1]
  simp only [h2, h3, Bool.false_eq_true, if_false]
  rw [findInDirs_eq_findPairs]

/-- C3 witness: directory order beats extension order (d1/x.so wins over
d2/x.rb), and within one directory holding all three candidates the .rb
one wins. -/
theorem find_file_search_order_witness :
    find_file fsTwo (some ["d1", "d2"]) ("x") = Except.ok ("d1/x.so") ∧
    find_file fsId (some ["d"]) ("x") = Except.ok ("d/x.rb") :=
  ⟨(find_file_search_order fsTwo ["d1", "d2"] ("x") rfl rfl rfl).trans rfl,
   (find_file_search_order fsId ["d"] ("x") rfl rfl rfl).trans rfl⟩

/-- C4 counterexample: $" entries with the native extensions .dll and
.dylib trigger no finalizer invocation at shutdown, although the claim
(and the spec's native-extension set) includes them: the code only
matches ".so". -/
theorem gem_final_skips_dll :
    mrb_mruby_require_gem_final ["a.dll", "b.dylib"] = [] ∧
    spec_native_ext ("a.dll") = true ∧
    spec_native_ext ("b.dylib") = true ∧
    List.filter spec_native_ext ["a.dll", "b.dylib"] = ["a.dll", "b.dylib"] :=
  ⟨rfl, rfl, rfl, rfl⟩

/-- C4 (amended): at shutdown the unloader walks $" in load order and
invokes the finalizer exactly once per entry whose extension is
exactly ".so"; .dll and .dylib entries, like all non-native entries,
trigger no teardown action.  The invoked list is the order-preserving
filter of $", hence a sublist with the original multiplicities. -/
theorem gem_final_unloads_only_so (L : List String) :
    mrb_mruby_require_gem_final L =
      L.filter (fun f => extOf f == some (".so"))
    ∧ List.Sublist (mrb_mruby_require_gem_final L) L
    ∧ ∀ f, (mrb_mruby_require_gem_final L).count f =
        if extOf f == some (".so") then L.count f else 0 := by
  have hfil : mrb_mruby_require_gem_final L =
      L.filter (fun f => extOf f == some (".so")) := by
    induction L with
    | nil => rfl
    | cons f t ih =>
      simp only [mrb_mruby_require_gem_final, List.filter_cons]
      cases hE : extOf f with
      | none => simpa [hE] using ih
      | some e =>
        by_cases he : e = ".so"
        · simp [hE, he, ih]
        · simp [hE, he, ih]
  refine ⟨hfil, ?_, ?_⟩
  · rw [hfil]
    exact List.filter_sublist L
  · intro f
    rw [hfil]
    exact count_filter_bool (fun f => extOf f == some (".so")) L f

/-- C5 counterexample: an empty name with a valid search path does not
produce the configuration error: find_file has no empty-name check, so
the empty string is searched like any bare name (tried as dir/.rb etc.)
and, when nothing opens, the NotFound load error is raised instead. -/
theorem empty_name_not_config_error :
    find_file fsNone (some ["d"]) ("") =
      Except.error (ReqError.loadError ("cannot load such file -- ")) ∧
    (Except.error (ReqError.loadError ("cannot load such file -- ")) ≠
      (Except.error (ReqError.runtimeError ("invalid $:")) :
        Except ReqError String)) := by
  refine ⟨rfl, ?_⟩
  intro h
  exact ReqError.noConfusion (Except.error.inj h)

/-- C5 (amended): resolution fails with the configuration error
(E_RUNTIME_ERROR "invalid $:", distinct from the NotFound load error)
exactly when $: is not an array; an empty name gets no special check -
with a valid search path every resolution failure, the empty name
included, is the NotFound load error naming the original name. -/
theorem find_file_error_classes (fs : FS) (fname : String) (dirs : List String)
    (e : ReqError) (h : find_file fs (some dirs) fname = Except.error e) :
    find_file fs none fname = Except.error (ReqError.runtimeError ("invalid $:"))
    ∧ e = ReqError.loadError ("cannot load such file -- " ++ fname) := by
  refine ⟨rfl, ?_⟩
  unfold find_file at h
  dsimp only at h
  by_cases hs : startsWithChar fname '/' = true
  · simp only [hs, if_true] at h
    by_cases ho : fs.openable fname = true
    · simp only [ho, if_true] at h
      cases h
    · simp only [Bool.not_eq_true] at ho
      simp only [ho, Bool.false_eq_true, if_false] at h
      exact (Except.error.inj h).symm
  · simp only [Bool.not_eq_true] at hs
    simp only [hs, Bool.false_eq_true, if_false] at h
    cases hD : findInDirs fs fname
        (if startsWithChar fname '.' = true then ["."] else dirs)
        (candExts fname) with
    | none =>
      rw [hD] at h
      exact (Except.error.inj h).symm
    | some p =>
      rw [hD] at h
      cases h

/-- C5 witness for the amended claim: at a concrete input both error
classes show up as stated. -/
theorem find_file_error_classes_witness :
    find_file fsNone none ("nm") =
      Except.error (ReqError.runtimeError ("invalid $:")) :=
  (find_file_error_classes fsNone ("nm") ["d"]
    (ReqError.loadError ("cannot load such file -- nm")) rfl).1

/-- C6: for a name starting with '/', resolution ignores the contents of
the search path entirely; when the file opens the name is returned
verbatim (no canonicalization, no extension substitution), and when it
does not, the NotFound load error is raised without consulting any
search-path directory. -/
theorem absolute_path_bypasses_search (fs : FS) (fname : String)
    (h : startsWithChar fname '/' = true) :
    (∀ dirs dirs2 : List String,
        find_file fs (some dirs) fname = find_file fs (some dirs2) fname)
    ∧ (fs.openable fname = true →
        ∀ dirs : List String, find_file fs (some dirs) fname = Except.ok fname)
    ∧ (fs.openable fname = false →
        ∀ dirs : List String, find_file fs (some dirs) fname =
          Except.error (ReqError.loadError ("cannot load such file -- " ++ fname))) := by
  refine ⟨?_, ?_, ?_⟩
  · intro dirs dirs2
    unfold find_file
    simp only [h, if_true]
  · intro ho dirs
    unfold find_file
    simp only [h, ho, if_true]
  · intro ho dirs
    unfold find_file
    simp only [h, ho, if_true, Bool.false_eq_true, if_false]

/-- C6 witness: an absolute path that does not open fails with the
NotFound error even though the search path is nonempty. -/
theorem absolute_path_bypasses_search_witness :
    find_file fsNone (some ["d"]) ("/tmp/x.rb") =
      Except.error (ReqError.loadError ("cannot load such file -- /tmp/x.rb")) :=
  (absolute_path_bypasses_search fsNone ("/tmp/x.rb") rfl).2.2 rfl ["d"]

/-- C7: when the final instruction is the bare stop opcode, the image is
rewritten to end in load-nil followed by return, one instruction longer;
with the buffer flagged MRB_ISEQ_NO_FREE a fresh owned copy is patched
and the flag is cleared, otherwise the flags are untouched; an image
whose final instruction is not the stop opcode is left unchanged. -/
theorem replace_stop_with_return_spec (r : Irep) :
    (r.iseq.getLast? = some (MKOP_A OP_STOP 0) → r.flags = MRB_ISEQ_NO_FREE →
      replace_stop_with_return r =
        { iseq := r.iseq.dropLast ++
            [MKOP_A OP_LOADNIL 0, MKOP_AB OP_RETURN 0 OP_R_NORMAL],
          flags := 0 }
      ∧ (replace_stop_with_return r).iseq.length = r.iseq.length + 1)
    ∧ (r.iseq.getLast? = some (MKOP_A OP_STOP 0) → r.flags ≠ MRB_ISEQ_NO_FREE →
      replace_stop_with_return r =
        { iseq := r.iseq.dropLast ++
            [MKOP_A OP_LOADNIL 0, MKOP_AB OP_RETURN 0 OP_R_NORMAL],
          flags := r.flags }
      ∧ (replace_stop_with_return r).iseq.length = r.iseq.length + 1)
    ∧ (r.iseq.getLast? ≠ some (MKOP_A OP_STOP 0) →
      replace_stop_with_return r = r) := by
  have hlen : r.iseq.getLast? = some (MKOP_A OP_STOP 0) → 1 ≤ r.iseq.length := by
    intro hS
    cases hI : r.iseq with
    | nil => rw [hI] at hS; cases hS
    | cons a t => simp [hI]
  refine ⟨?_, ?_, ?_⟩
  · intro hS hF
    have heq : replace_stop_with_return r =
        { iseq := r.iseq.dropLast ++
            [MKOP_A OP_LOADNIL 0, MKOP_AB OP_RETURN 0 OP_R_NORMAL],
          flags := 0 } := by
      unfold replace_stop_with_return
      rw [if_pos hS, if_pos hF, hF]
      rfl
    refine ⟨heq, ?_⟩
    rw [heq]
    simp only [List.length_append, List.length_dropLast, List.length_cons,
      List.length_nil]
    have h1 := hlen hS
    omega
  · intro hS hF
    have heq : replace_stop_with_return r =
        { iseq := r.iseq.dropLast ++
            [MKOP_A OP_LOADNIL 0, MKOP_AB OP_RETURN 0 OP_R_NORMAL],
          flags := r.flags } := by
      unfold replace_stop_with_return
      rw [if_pos hS, if_neg hF]
    refine ⟨heq, ?_⟩
    rw [heq]
    simp only [List.length_append, List.length_dropLast, List.length_cons,
      List.length_nil]
    have h1 := hlen hS
    omega
  · intro hS
    unfold replace_stop_with_return
    rw [if_neg hS]

/-- C7 witness: a two-instruction image ending in the bare stop opcode,
flagged not-owned, becomes the patched three-instruction owned image. -/
theorem replace_stop_with_return_spec_witness :
    replace_stop_with_return { iseq := [7, MKOP_A OP_STOP 0], flags := 1 } =
      { iseq := [7, MKOP_A OP_LOADNIL 0, MKOP_AB OP_RETURN 0 OP_R_NORMAL],
        flags := 0 } :=
  ((replace_stop_with_return_spec
    { iseq := [7, MKOP_A OP_STOP 0], flags := 1 }).1 rfl rfl).1

/-- C8: with the library handle open but neither conventional symbol
resolving, load_so_file raises the LoadError whose message names both
expected symbols - built from the stem: base name, extension stripped,
dashes turned to underscores - and the library path. -/
theorem load_so_missing_symbols_error (env : Env) (s : LoaderState) (p : String)
    (h1 : env.dl.dlopenOk p = true)
    (h2 : env.dl.dlsym p ("mrb_" ++ so_stem p ++ "_gem_init") = false)
    (h3 : env.dl.dlsym p ("gem_mrblib_irep_" ++ so_stem p) = false) :
    load_so_file env s p = Res.raised
      (ReqError.loadError ("failed to attach " ++
        ("mrb_" ++ so_stem p ++ "_gem_init") ++ " or " ++
        ("gem_mrblib_irep_" ++ so_stem p) ++ " in library " ++ p ++ "\n")) s := by
  unfold load_so_file so_entry_init so_entry_irep
  simp only [h1, h2, h3, if_true, Bool.not_false, Bool.and_self, if_false]

/-- C8 witness: a dashed library name lib/my-ext.so with no resolvable
symbols produces the exact message with stem my_ext. -/
theorem load_so_missing_symbols_error_witness :
    load_so_file envOk s0 ("lib/my-ext.so") = Res.raised
      (ReqError.loadError
        ("failed to attach mrb_my_ext_gem_init or gem_mrblib_irep_my_ext in library lib/my-ext.so\n"))
      s0 :=
  load_so_missing_symbols_error envOk s0 ("lib/my-ext.so") rfl rfl rfl

/-- A successful source load through mrb_load: the resolved .rb file is
executed once and only the trace and mrb->exc move. -/
theorem mrb_load_rb_ok (env : Env) (s : LoaderState) (fname p : String)
    (hF : find_file env.fs s.searchPath fname = Except.ok p)
    (hE : extOf p = some (".rb")) (hO : env.fs.openable p = true) :
    mrb_load env s fname =
      Res.ok true
        { s with executed := s.executed ++ [p], exc := env.runSourceErr p } := by
  unfold mrb_load
  rw [hF]
  dsimp only
  unfold load_file
  rw [hE]
  dsimp only
  simp only [if_true]
  unfold load_rb_file
  simp only [hO, if_true]

/-- C9: mrb_load neither consults nor mutates the load-state tracker -
its outcome commutes with arbitrarily overwriting $" and $"_ - so a
source file loads and executes even when already loaded, twice when
loaded twice; mrb_require of a name resolving to a path in $" performs
no execution at all. -/
theorem load_bypasses_tracker (env : Env) (s : LoaderState) (fname : String) :
    (∀ (L : List String) (D : Option (List String)),
        mrb_load env (setTracker s L D) fname =
          Res.mapState (fun t => setTracker t L D) (mrb_load env s fname))
    ∧ (∀ p, find_file env.fs s.searchPath fname = Except.ok p →
        extOf p = some (".rb") → env.fs.openable p = true →
        mrb_load env s fname = Res.ok true
          { s with executed := s.executed ++ [p], exc := env.runSourceErr p }
        ∧ mrb_load env
            { s with executed := s.executed ++ [p], exc := env.runSourceErr p }
            fname =
          Res.ok true
            { s with executed := (s.executed ++ [p]) ++ [p], exc := env.runSourceErr p })
    ∧ (∀ p, find_file env.fs s.searchPath fname = Except.ok p →
        s.loadedFiles.contains p = true →
        mrb_require env s fname = Res.ok false s) := by
  refine ⟨?_, ?_, ?_⟩
  · intro L D
    exact mrb_load_setTracker env s L D fname
  · intro p hF hE hO
    exact ⟨mrb_load_rb_ok env s fname p hF hE hO,
      mrb_load_rb_ok env
        { s with executed := s.executed ++ [p], exc := env.runSourceErr p }
        fname p hF hE hO⟩
  · intro p hF hmem
    have hc : loaded_files_check s p = false := by
      rw [loaded_files_check_spec]
      simp only [hmem, Bool.not_true, Bool.false_and]
    unfold mrb_require
    rw [hF]
    simp [hc]

/-- C9 witness: with d/x.rb already in $", mrb_load still executes it
while mrb_require refuses and executes nothing. -/
theorem load_bypasses_tracker_witness :
    mrb_load envOk sLoaded ("x") =
      Res.ok true { sLoaded with executed := ["d/x.rb"], exc := false } ∧
    mrb_require envOk sLoaded ("x") = Res.ok false sLoaded := by
  have h := load_bypasses_tracker envOk sLoaded ("x")
  exact ⟨(h.2.1 ("d/x.rb") rfl rfl rfl).1, h.2.2 ("d/x.rb") rfl rfl⟩

/-- C10: a normal return of mrb_load always carries the boolean true;
there is no input on which it returns false. -/
theorem load_never_returns_false (env : Env) (s : LoaderState) (fname : String) :
    Res.retOk (mrb_load env s fname) = some true ∨
    Res.retOk (mrb_load env s fname) = none := by
  unfold mrb_load
  cases hF : find_file env.fs s.searchPath fname with
  | error e => right; rfl
  | ok p =>
    dsimp only
    cases hL : load_file env s p with
    | ok u s1 => left; rfl
    | raised e s1 => right; rfl

end MrbRequire
